import Mathlib

/- Verification of the emulator facade in src/pymgba_mcp/emulator.py.

   The native mGBA core is an external collaborator: it is modelled by an
   environment of uninterpreted oracle functions (CoreEnv) together with an
   explicit Core record holding exactly the state components that the wrapper
   itself sets or observes (the key bitmask pushed through setKeys, addKeys and
   clearKeys, an abstract internal state advanced by runFrame, and the log of
   bus writes performed through busWrite8).

   Python method calls that mutate self and possibly raise are modelled as
   functions returning the updated Emulator record together with an Except
   value; mutations performed before a raise persist in the returned record,
   matching Python exception semantics.  Python integers are unbounded, so key
   bitmasks are Nat, addresses and user-supplied values are Int, and the
   bitwise operations are the corresponding unbounded Nat and Int operations:
   in particular x & ~y on nonnegative ints is Nat.ldiff, and v & 0xFF on a
   possibly negative Python int v is (v % 256).toNat with Euclidean mod. -/

/-- Errors raised by the facade (Python class EmulatorError). Each constructor
records which message was raised, carrying the data interpolated into the
message text. -/
inductive EmulatorError where
  | noRomLoaded : EmulatorError
  | romNotFound : String → EmulatorError
  | invalidButton : String → EmulatorError
  | writeFailed : Int → EmulatorError
  | stateTooSmall : Nat → Nat → EmulatorError
  | noSavestateAvailable : EmulatorError
  | loadStateFailed : EmulatorError
  deriving Repr, DecidableEq

/-- Oracle model of the native mGBA core entry points used by the facade.
The fields are uninterpreted functions: the wrapper makes no assumption about
them beyond the call pattern, which is what the claims are about. -/
structure CoreEnv where
  /-- One runFrame call: advances the abstract internal core state. -/
  step : Nat → Nat
  /-- The frameCounter accessor, read from the internal core state. -/
  frameCounter : Nat → Nat
  /-- busRead8: some value on success, none when the per-byte read raises. -/
  busRead8 : Int → Option Nat
  /-- busRead16: a 16-bit wide bus read (the wrapper masks it with 0xFFFF). -/
  busRead16 : Int → Nat
  /-- busWrite8 success: false means the per-byte write raises. -/
  busWrite8ok : Int → Nat → Bool
  /-- stateSize: the core-reported expected savestate size. -/
  stateSize : Nat
  /-- loadState success flag for a given buffer. -/
  loadStateOk : List Nat → Bool
  /-- Effect of a successful loadState on the internal core state. -/
  loadStateApply : List Nat → Nat → Nat

/-- The slice of native core state that the wrapper drives: the active key
bitmask, the abstract internal emulation state, and the log of bus writes
performed (in order). -/
structure Core where
  keys : Nat
  internal : Nat
  writes : List (Int × Nat)
  deriving Repr, DecidableEq

/-- The Emulator session object: one field per attribute set in __init__. -/
structure Emulator where
  core : Option Core
  video_buffer : Option Unit
  video_width : Nat
  video_height : Nat
  screen_width : Nat
  screen_height : Nat
  screen_offset_x : Nat
  screen_offset_y : Nat
  rom_path : Option String
  is_gba : Bool
  savestate : Option (List Nat)
  held_keys : Nat
  deriving Repr, DecidableEq

/-- Field values assigned by Emulator.__init__ (the initial unloaded state). -/
def Emulator.mkInit : Emulator :=
  { core := none
    video_buffer := none
    video_width := 0
    video_height := 0
    screen_width := 0
    screen_height := 0
    screen_offset_x := 0
    screen_offset_y := 0
    rom_path := none
    is_gba := false
    savestate := none
    held_keys := 0 }

/-- The class-level BUTTONS mapping from button name to bit position. -/
def BUTTONS : List (String × Nat) :=
  [("a", 0), ("b", 1), ("select", 2), ("start", 3), ("right", 4),
   ("left", 5), ("up", 6), ("down", 7), ("r", 8), ("l", 9)]

/-- The buttons property: GB drops the l and r shoulder buttons. -/
def buttonsFor (gba : Bool) : List (String × Nat) :=
  if gba then BUTTONS
  else BUTTONS.filter (fun p => p.1 != "l" && p.1 != "r")

/-- The buttons property on a session. -/
def Emulator.buttons (e : Emulator) : List (String × Nat) :=
  buttonsFor e.is_gba

/-- Python str.lower restricted to the character-wise mapping (ASCII on the
button names in play). -/
def pyLower (s : String) : String :=
  ⟨s.data.map Char.toLower⟩

/-- The _button_to_key helper: case-insensitive lookup in the platform button
set, returning the single-bit mask 1 <<< index, or the invalid-button error. -/
def Emulator.button_to_key (e : Emulator) (button : String) :
    Except EmulatorError Nat :=
  match e.buttons.lookup (pyLower button) with
  | some idx => .ok (1 <<< idx)
  | none => .error (.invalidButton button)

/-- One core runFrame call. It advances only the internal state: the key
bitmask is changed by the core only through setKeys, addKeys and clearKeys. -/
def coreRunFrame (env : CoreEnv) (c : Core) : Core :=
  { c with internal := env.step c.internal }

/-- The loop for _ in range(n): self._core.runFrame(...). -/
def runFrameLoop (env : CoreEnv) : Nat → Core → Core
  | 0, c => c
  | n + 1, c => runFrameLoop env n (coreRunFrame env c)

/-- Core addKeys: ors the given mask into the active keys. -/
def coreAddKeys (c : Core) (key : Nat) : Core :=
  { c with keys := c.keys ||| key }

/-- Core clearKeys: clears the given mask from the active keys
(keys &= ~key on unbounded nonnegative ints, which is Nat.ldiff). -/
def coreClearKeys (c : Core) (key : Nat) : Core :=
  { c with keys := Nat.ldiff c.keys key }

/-- Core setKeys: replaces the active keys wholesale. -/
def coreSetKeys (c : Core) (key : Nat) : Core :=
  { c with keys := key }

/-- Emulator.run_frames: requires a session, runs count frames (range(count)
is empty for count <= 0), returns the frame counter read from the core. -/
def Emulator.run_frames (env : CoreEnv) (e : Emulator) (count : Int) :
    Emulator × Except EmulatorError Nat :=
  match e.core with
  | none => (e, .error .noRomLoaded)
  | some c =>
    let c := runFrameLoop env count.toNat c
    ({ e with core := some c }, .ok (env.frameCounter c.internal))

/-- Emulator.press_button: addKeys(key), run the frames, clearKeys(key).
The held_keys session attribute is never touched. -/
def Emulator.press_button (env : CoreEnv) (e : Emulator) (button : String)
    (frames : Int) : Emulator × Except EmulatorError Unit :=
  match e.core with
  | none => (e, .error .noRomLoaded)
  | some c =>
    match e.button_to_key button with
    | .error err => (e, .error err)
    | .ok key =>
      let c := coreAddKeys c key
      let c := runFrameLoop env frames.toNat c
      let c := coreClearKeys c key
      ({ e with core := some c }, .ok ())

/-- The keys accumulation loop shared by hold_buttons and set_buttons:
keys = 0; for button in buttons: keys |= self._button_to_key(button). -/
def collectKeys (e : Emulator) : Nat → List String → Except EmulatorError Nat
  | keys, [] => .ok keys
  | keys, b :: rest =>
    match e.button_to_key b with
    | .error err => .error err
    | .ok key => collectKeys e (keys ||| key) rest

/-- Emulator.hold_buttons: ors the collected mask into held_keys and pushes
the combined mask to the core with setKeys. -/
def Emulator.hold_buttons (e : Emulator) (buttons : List String) :
    Emulator × Except EmulatorError Unit :=
  match e.core with
  | none => (e, .error .noRomLoaded)
  | some c =>
    match collectKeys e 0 buttons with
    | .error err => (e, .error err)
    | .ok keys =>
      let held := e.held_keys ||| keys
      ({ e with held_keys := held, core := some (coreSetKeys c held) }, .ok ())

/-- Emulator.set_buttons: replaces held_keys with the collected mask and
pushes it to the core with setKeys. -/
def Emulator.set_buttons (e : Emulator) (buttons : List String) :
    Emulator × Except EmulatorError Unit :=
  match e.core with
  | none => (e, .error .noRomLoaded)
  | some c =>
    match collectKeys e 0 buttons with
    | .error err => (e, .error err)
    | .ok keys =>
      ({ e with held_keys := keys, core := some (coreSetKeys c keys) }, .ok ())

/-- The per-button loop of release_buttons with an explicit list:
self._held_keys &= ~key, one button at a time, raising on an invalid name
with the mutations made so far kept. -/
def releaseLoop (e : Emulator) : Nat → List String → Nat × Except EmulatorError Unit
  | held, [] => (held, .ok ())
  | held, b :: rest =>
    match e.button_to_key b with
    | .error err => (held, .error err)
    | .ok key => releaseLoop e (Nat.ldiff held key) rest

/-- Emulator.release_buttons: none releases everything; with a list, bits are
cleared per name and setKeys runs only after the whole loop finished, so an
invalid name mid-list leaves held_keys partially cleared and the core
untouched. -/
def Emulator.release_buttons (e : Emulator) (buttons : Option (List String)) :
    Emulator × Except EmulatorError Unit :=
  match e.core with
  | none => (e, .error .noRomLoaded)
  | some c =>
    match buttons with
    | none =>
      ({ e with held_keys := 0, core := some (coreSetKeys c 0) }, .ok ())
    | some bs =>
      match releaseLoop e e.held_keys bs with
      | (held, .error err) => ({ e with held_keys := held }, .error err)
      | (held, .ok _) =>
        ({ e with held_keys := held, core := some (coreSetKeys c held) }, .ok ())

/-- One iteration of the read_memory loop body: busRead8 masked with 0xFF on
success, 0 when the per-byte read raised. -/
def readByte (env : CoreEnv) (address : Int) : Nat :=
  match env.busRead8 address with
  | some value => value &&& 0xFF
  | none => 0

/-- The read_memory result list for a loaded session. -/
def readMemoryBytes (env : CoreEnv) (address : Int) (length : Nat) : List Nat :=
  (List.range length).map (fun (i : Nat) => readByte env (address + (i : Int)))

/-- Emulator.read_memory: no-session error when unloaded, otherwise the
zero-filled byte list. The session is not mutated by reads. -/
def Emulator.read_memory (env : CoreEnv) (e : Emulator) (address : Int)
    (length : Nat) : Except EmulatorError (List Nat) :=
  match e.core with
  | none => .error .noRomLoaded
  | some _ => .ok (readMemoryBytes env address length)

/-- The write_memory loop: for i, value in enumerate(values), write
value & 0xFF to address + i, raising EmulatorError with the failing address
on the first busWrite8 failure; earlier writes stay in the log. -/
def writeLoop (env : CoreEnv) (address : Int) :
    Nat → List Int → Core → Core × Except EmulatorError Unit
  | _, [], c => (c, .ok ())
  | i, v :: rest, c =>
    let b := (v % 256).toNat
    if env.busWrite8ok (address + i) b then
      writeLoop env address (i + 1) rest
        { c with writes := c.writes ++ [(address + i, b)] }
    else
      (c, .error (.writeFailed (address + i)))

/-- Emulator.write_memory. -/
def Emulator.write_memory (env : CoreEnv) (e : Emulator) (address : Int)
    (values : List Int) : Emulator × Except EmulatorError Unit :=
  match e.core with
  | none => (e, .error .noRomLoaded)
  | some c =>
    match writeLoop env address 0 values c with
    | (c2, r) => ({ e with core := some c2 }, r)

/-- The 16-bit bus read as used by read_u16: busRead16 masked with 0xFFFF. -/
def busRead16Masked (env : CoreEnv) (address : Int) : Nat :=
  env.busRead16 address &&& 0xFFFF

/-- Emulator.read_u16. -/
def Emulator.read_u16 (env : CoreEnv) (e : Emulator) (address : Int) :
    Except EmulatorError Nat :=
  match e.core with
  | none => .error .noRomLoaded
  | some _ => .ok (busRead16Masked env address)

/-- Emulator.load_state: falls back to the cached savestate, rejects a buffer
smaller than the core-reported size before calling loadState, and otherwise
delegates to the core. -/
def Emulator.load_state (env : CoreEnv) (e : Emulator)
    (state : Option (List Nat)) : Emulator × Except EmulatorError Unit :=
  match e.core with
  | none => (e, .error .noRomLoaded)
  | some c =>
    let st := match state with
      | none => e.savestate
      | some s => some s
    match st with
    | none => (e, .error .noSavestateAvailable)
    | some s =>
      if s.length < env.stateSize then
        (e, .error (.stateTooSmall s.length env.stateSize))
      else if env.loadStateOk s then
        ({ e with core := some { c with internal := env.loadStateApply s c.internal } },
          .ok ())
      else
        (e, .error .loadStateFailed)

/-- One GBA OAM record as built by the dump_oam loop body. -/
structure GbaSprite where
  index : Nat
  x : Nat
  y : Nat
  tile : Nat
  palette : Nat
  attr0 : Nat
  attr1 : Nat
  attr2 : Nat
  deriving Repr, DecidableEq

/-- One GB OAM record as built by the dump_oam loop body. -/
structure GbSprite where
  index : Nat
  y : Int
  x : Int
  tile : Nat
  flags : Nat
  priority : Nat
  y_flip : Nat
  x_flip : Nat
  palette : Nat
  bank : Nat
  cgb_palette : Nat
  deriving Repr, DecidableEq

/-- A dump_oam record: one of the two per-platform record shapes. -/
inductive Sprite where
  | gba : GbaSprite → Sprite
  | gb : GbSprite → Sprite
  deriving Repr, DecidableEq

/-- The GBA branch loop body of dump_oam at sprite slot i: three 16-bit
attribute reads at 0x07000000 + i * 8 and the bit-field decode. -/
def gbaSpriteAt (env : CoreEnv) (i : Nat) : GbaSprite :=
  let addr : Int := 0x07000000 + i * 8
  let attr0 := busRead16Masked env addr
  let attr1 := busRead16Masked env (addr + 2)
  let attr2 := busRead16Masked env (addr + 4)
  { index := i
    x := attr1 &&& 0x1FF
    y := attr0 &&& 0xFF
    tile := attr2 &&& 0x3FF
    palette := (attr2 >>> 12) &&& 0xF
    attr0 := attr0
    attr1 := attr1
    attr2 := attr2 }

/-- The GB branch loop body of dump_oam at sprite slot i: a 4-byte
read_memory at 0xFE00 + i * 4 and the flag decode, with the hardware
coordinate offsets -16 and -8 applied. -/
def gbSpriteAt (env : CoreEnv) (i : Nat) : GbSprite :=
  let addr : Int := 0xFE00 + i * 4
  let mem := readMemoryBytes env addr 4
  let y := mem.getD 0 0
  let x := mem.getD 1 0
  let tile := mem.getD 2 0
  let flags := mem.getD 3 0
  { index := i
    y := (y : Int) - 16
    x := (x : Int) - 8
    tile := tile
    flags := flags
    priority := (flags >>> 7) &&& 1
    y_flip := (flags >>> 6) &&& 1
    x_flip := (flags >>> 5) &&& 1
    palette := (flags >>> 4) &&& 1
    bank := (flags >>> 3) &&& 1
    cgb_palette := flags &&& 0x7 }

/-- Emulator.dump_oam: 128 GBA records or 40 GB records. -/
def Emulator.dump_oam (env : CoreEnv) (e : Emulator) :
    Except EmulatorError (List Sprite) :=
  match e.core with
  | none => .error .noRomLoaded
  | some _ =>
    if e.is_gba then
      .ok ((List.range 128).map (fun i => .gba (gbaSpriteAt env i)))
    else
      .ok ((List.range 40).map (fun i => .gb (gbSpriteAt env i)))

/-- Emulator.close: deinit the core when present (an external call), then
clear the handle fields. Only the fields assigned in the close body change;
the cached dimensions, offsets and the platform flag keep their values. -/
def Emulator.close (e : Emulator) : Emulator :=
  { e with core := none
           video_buffer := none
           rom_path := none
           savestate := none
           held_keys := 0 }

/-! Helper lemmas about the loop helpers and the unbounded bit operations. -/

theorem runFrameLoop_eq (env : CoreEnv) (n : Nat) (c : Core) :
    runFrameLoop env n c = { c with internal := env.step^[n] c.internal } := by
  induction n generalizing c with
  | zero => rfl
  | succ n ih =>
    show runFrameLoop env n (coreRunFrame env c) = _
    rw [ih]
    simp [coreRunFrame, Function.iterate_succ_apply]

theorem ldiff_zero (x : Nat) : Nat.ldiff x 0 = x := by
  apply Nat.eq_of_testBit_eq
  intro i
  simp [Nat.testBit_ldiff]

theorem ldiff_ldiff (h a b : Nat) :
    Nat.ldiff (Nat.ldiff h a) b = Nat.ldiff h (a ||| b) := by
  apply Nat.eq_of_testBit_eq
  intro i
  simp only [Nat.testBit_ldiff, Nat.testBit_lor]
  cases h.testBit i <;> cases a.testBit i <;> cases b.testBit i <;> simp

theorem ldiff_lor_self (x k : Nat) : Nat.ldiff (x ||| k) k = Nat.ldiff x k := by
  apply Nat.eq_of_testBit_eq
  intro i
  simp only [Nat.testBit_ldiff, Nat.testBit_lor]
  cases x.testBit i <;> cases k.testBit i <;> simp

theorem one_shiftLeft_eq_two_pow (idx : Nat) : (1 <<< idx) = 2 ^ idx := by
  rw [Nat.shiftLeft_eq, one_mul]

theorem testBit_ldiff_single (x idx j : Nat) (hj : j ≠ idx) :
    (Nat.ldiff x (1 <<< idx)).testBit j = x.testBit j := by
  rw [one_shiftLeft_eq_two_pow]
  simp [Nat.testBit_ldiff, Nat.testBit_two_pow_of_ne (fun h => hj h.symm)]

theorem testBit_ldiff_single_self (x idx : Nat) :
    (Nat.ldiff x (1 <<< idx)).testBit idx = false := by
  rw [one_shiftLeft_eq_two_pow]
  simp [Nat.testBit_ldiff, Nat.testBit_two_pow_self]

theorem testBit_lor_single (x idx j : Nat) (hj : j ≠ idx) :
    (x ||| 1 <<< idx).testBit j = x.testBit j := by
  rw [one_shiftLeft_eq_two_pow]
  simp [Nat.testBit_lor, Nat.testBit_two_pow_of_ne (fun h => hj h.symm)]

theorem testBit_lor_single_self (x idx : Nat) :
    (x ||| 1 <<< idx).testBit idx = true := by
  rw [one_shiftLeft_eq_two_pow]
  simp [Nat.testBit_lor, Nat.testBit_two_pow_self]

theorem and_two_pow_sub_one (x n : Nat) : x &&& (2 ^ n - 1) = x % 2 ^ n := by
  apply Nat.eq_of_testBit_eq
  intro i
  simp only [Nat.testBit_land, Nat.testBit_mod_two_pow, Nat.testBit_two_pow_sub_one]
  cases x.testBit i <;> simp

theorem collectKeys_acc (e : Emulator) (l : List String) :
    ∀ acc, collectKeys e acc l = (collectKeys e 0 l).map (acc ||| ·) := by
  induction l with
  | nil => intro acc; simp [collectKeys, Except.map]
  | cons b rest ih =>
    intro acc
    simp only [collectKeys]
    cases hb : e.button_to_key b with
    | error err => simp [Except.map]
    | ok key =>
      dsimp only
      rw [ih (acc ||| key), ih (0 ||| key)]
      cases collectKeys e 0 rest with
      | error err => simp [Except.map]
      | ok K => simp [Except.map, Nat.zero_or, Nat.lor_assoc]

theorem releaseLoop_valid_front (e : Emulator) (l2 : List String) :
    ∀ (pre : List String) (held K : Nat), collectKeys e 0 pre = .ok K →
      releaseLoop e held (pre ++ l2) = releaseLoop e (Nat.ldiff held K) l2 := by
  intro pre
  induction pre with
  | nil =>
    intro held K hK
    simp only [collectKeys] at hK
    cases hK
    simp [ldiff_zero]
  | cons b rest ih =>
    intro held K hK
    simp only [collectKeys] at hK
    cases hb : e.button_to_key b with
    | error err => rw [hb] at hK; cases hK
    | ok key =>
      rw [hb] at hK
      dsimp only at hK
      rw [collectKeys_acc e rest (0 ||| key)] at hK
      cases hrest : collectKeys e 0 rest with
      | error err => rw [hrest] at hK; cases hK
      | ok K2 =>
        rw [hrest] at hK
        simp only [Except.map, Except.ok.injEq] at hK
        have hstep : releaseLoop e held ((b :: rest) ++ l2) =
            releaseLoop e (Nat.ldiff held key) (rest ++ l2) := by
          simp [releaseLoop, hb]
        rw [hstep, ih (Nat.ldiff held key) K2 hrest, ldiff_ldiff, ← hK,
          Nat.zero_or]

/-- Specification artifact (not from the source): the log entries that a run
of the write_memory loop over the value list pre, starting at enumerate index
i, is expected to append: byte j goes to address + (i + j) with the value
reduced mod 256. -/
def writesFor (address : Int) (i : Nat) (pre : List Int) : List (Int × Nat) :=
  (List.range pre.length).map
    (fun (j : Nat) => (address + ((i + j : Nat) : Int), ((pre.getD j 0) % 256).toNat))

theorem writesFor_nil (address : Int) (i : Nat) : writesFor address i [] = [] := by
  simp [writesFor]

theorem writesFor_cons (address : Int) (i : Nat) (v : Int) (rest : List Int) :
    writesFor address i (v :: rest) =
      (address + (i : Int), (v % 256).toNat) :: writesFor address (i + 1) rest := by
  unfold writesFor
  rw [List.length_cons, List.range_succ_eq_map, List.map_cons, List.map_map]
  simp only [List.getD_cons_zero, Nat.add_zero, List.cons.injEq]
  constructor
  · trivial
  · apply List.map_congr_left
    intro a _
    have h1 : i + Nat.succ a = i + 1 + a := by omega
    simp only [Function.comp_apply, List.getD_cons_succ, h1]

theorem writeLoop_ok_front (env : CoreEnv) (address : Int) (suffix : List Int) :
    ∀ (pre : List Int) (i : Nat) (c : Core),
      (∀ j, j < pre.length →
        env.busWrite8ok (address + ((i + j : Nat) : Int))
          (((pre.getD j 0) % 256).toNat) = true) →
      writeLoop env address i (pre ++ suffix) c =
        writeLoop env address (i + pre.length) suffix
          { c with writes := c.writes ++ writesFor address i pre } := by
  intro pre
  induction pre with
  | nil =>
    intro i c _
    simp [writeLoop, writesFor_nil]
  | cons v rest ih =>
    intro i c hok
    have h0Q : env.busWrite8ok (address + (i : Int)) ((v % 256).toNat) = true := by
      simpa using hok 0 (by simp)
    have hstep : writeLoop env address i ((v :: rest) ++ suffix) c =
        writeLoop env address (i + 1) (rest ++ suffix)
          { c with writes := c.writes ++ [(address + (i : Int), (v % 256).toNat)] } := by
      simp only [List.cons_append, writeLoop]
      rw [if_pos h0Q]
      rfl
    rw [hstep, ih (i + 1) _ (fun j hj => by
      have h2 : i + (j + 1) = i + 1 + j := by omega
      have := hok (j + 1) (by simpa using Nat.succ_lt_succ hj)
      simpa [List.getD_cons_succ, h2] using this)]
    have harith : i + 1 + rest.length = i + (v :: rest).length := by
      simp only [List.length_cons]
      omega
    have hlist : (c.writes ++ [(address + (i : Int), (v % 256).toNat)]) ++
        writesFor address (i + 1) rest = c.writes ++ writesFor address i (v :: rest) := by
      rw [List.append_assoc, writesFor_cons]
      rfl
    rw [harith, hlist]

theorem readMemoryBytes_length (env : CoreEnv) (address : Int) (length : Nat) :
    (readMemoryBytes env address length).length = length := by
  rw [readMemoryBytes, List.length_map, List.length_range]

theorem readMemoryBytes_getElem? (env : CoreEnv) (address : Int)
    (length i : Nat) (hi : i < length) :
    (readMemoryBytes env address length)[i]? =
      some (readByte env (address + (i : Int))) := by
  rw [readMemoryBytes, List.getElem?_map, List.getElem?_range hi]
  rfl

theorem readByte_le (env : CoreEnv) (address : Int) :
    readByte env address ≤ 255 := by
  unfold readByte
  cases env.busRead8 address with
  | none => simp
  | some v => exact Nat.and_le_right

/-! Concrete fixtures used by the witness instantiations. -/

/-- A concrete oracle environment: frames increment an internal counter, the
byte read at address 101 raises, every other read returns 0x1FF, byte writes
fail exactly at address 202, and the expected savestate size is 4. -/
def envW : CoreEnv :=
  { step := fun n => n + 1
    frameCounter := fun n => n
    busRead8 := fun a => if a = 101 then none else some 0x1FF
    busRead16 := fun _ => 0xABCD
    busWrite8ok := fun a _ => a != 202
    stateSize := 4
    loadStateOk := fun _ => true
    loadStateApply := fun s _ => s.length }

/-- A fresh core with no keys held. -/
def coreW : Core := { keys := 0, internal := 0, writes := [] }

/-- A core with the a and b key bits active. -/
def coreHeld : Core := { keys := 3, internal := 0, writes := [] }

/-- A loaded GB session with nothing held. -/
def emuGB : Emulator := { Emulator.mkInit with core := some coreW }

/-- A loaded GBA session with nothing held. -/
def emuGBA : Emulator := { Emulator.mkInit with core := some coreW, is_gba := true }

/-- A loaded GB session holding a and b (facade and core in sync). -/
def emuHeld : Emulator :=
  { Emulator.mkInit with core := some coreHeld, held_keys := 3 }

/-- A fully populated GBA session, as it looks after load_rom succeeded. -/
def emuSession : Emulator :=
  { core := some coreW
    video_buffer := some ()
    video_width := 240
    video_height := 160
    screen_width := 240
    screen_height := 160
    screen_offset_x := 0
    screen_offset_y := 0
    rom_path := some "game.gba"
    is_gba := true
    savestate := some [1, 2, 3]
    held_keys := 5 }

/-! Claim theorems. -/

theorem lookup_button_a (g : Bool) : (buttonsFor g).lookup (pyLower "a") = some 0 := by
  cases g <;> decide

theorem lookup_button_b (g : Bool) : (buttonsFor g).lookup (pyLower "b") = some 1 := by
  cases g <;> decide

theorem button_to_key_of_lookup (e : Emulator) (b : String) (idx : Nat)
    (hb : (buttonsFor e.is_gba).lookup (pyLower b) = some idx) :
    e.button_to_key b = .ok (1 <<< idx) := by
  unfold Emulator.button_to_key Emulator.buttons
  rw [hb]

theorem button_to_key_of_lookup_none (e : Emulator) (b : String)
    (hb : (buttonsFor e.is_gba).lookup (pyLower b) = none) :
    e.button_to_key b = .error (.invalidButton b) := by
  unfold Emulator.button_to_key Emulator.buttons
  rw [hb]

/-- C1: On a loaded session, hold_buttons with a list of one valid name
succeeds, and calling hold_buttons a second time ors into the held bitmask
rather than replacing it: after hold_buttons with a and then hold_buttons
with b, the held bitmask is the old one with bits 0 and 1 added, both the a
and the b bits test true, and exactly that combined bitmask has been pushed
to the core key state via setKeys. -/
theorem C1_hold_buttons_additive (e : Emulator) (c : Core) (h : e.core = some c) :
    (e.hold_buttons ["a"]).2 = .ok () ∧
    ((e.hold_buttons ["a"]).1.hold_buttons ["b"]).2 = .ok () ∧
    ((e.hold_buttons ["a"]).1.hold_buttons ["b"]).1.held_keys =
      e.held_keys ||| 1 ||| 2 ∧
    (((e.hold_buttons ["a"]).1.hold_buttons ["b"]).1.held_keys).testBit 0 = true ∧
    (((e.hold_buttons ["a"]).1.hold_buttons ["b"]).1.held_keys).testBit 1 = true ∧
    (∃ c2, ((e.hold_buttons ["a"]).1.hold_buttons ["b"]).1.core = some c2 ∧
      c2.keys = ((e.hold_buttons ["a"]).1.hold_buttons ["b"]).1.held_keys) := by
  have ha : e.button_to_key "a" = .ok 1 :=
    button_to_key_of_lookup e "a" 0 (lookup_button_a e.is_gba)
  have hfst : e.hold_buttons ["a"] =
      ({ e with held_keys := e.held_keys ||| 1,
                core := some (coreSetKeys c (e.held_keys ||| 1)) }, .ok ()) := by
    simp [Emulator.hold_buttons, h, collectKeys, ha, Nat.zero_or]
  have hb : ({ e with held_keys := e.held_keys ||| 1,
                      core := some (coreSetKeys c (e.held_keys ||| 1)) } :
      Emulator).button_to_key "b" = .ok 2 :=
    button_to_key_of_lookup _ "b" 1 (lookup_button_b _)
  have hsnd : ({ e with held_keys := e.held_keys ||| 1,
                        core := some (coreSetKeys c (e.held_keys ||| 1)) } :
      Emulator).hold_buttons ["b"] =
      ({ e with held_keys := e.held_keys ||| 1 ||| 2,
                core := some (coreSetKeys (coreSetKeys c (e.held_keys ||| 1))
                  (e.held_keys ||| 1 ||| 2)) }, .ok ()) := by
    simp [Emulator.hold_buttons, collectKeys, hb, Nat.zero_or]
  rw [hfst]
  simp only [hsnd]
  refine ⟨trivial, trivial, trivial, ?_, ?_, ⟨_, rfl, rfl⟩⟩
  · simp only [Nat.testBit_lor, Bool.or_eq_true]
    exact Or.inl (Or.inr (by decide))
  · simp only [Nat.testBit_lor, Bool.or_eq_true]
    exact Or.inr (by decide)

theorem C1_hold_buttons_additive_witness :
    emuGB.core = some coreW ∧
    ((emuGB.hold_buttons ["a"]).2 = .ok () ∧
    ((emuGB.hold_buttons ["a"]).1.hold_buttons ["b"]).2 = .ok () ∧
    ((emuGB.hold_buttons ["a"]).1.hold_buttons ["b"]).1.held_keys =
      emuGB.held_keys ||| 1 ||| 2 ∧
    (((emuGB.hold_buttons ["a"]).1.hold_buttons ["b"]).1.held_keys).testBit 0 = true ∧
    (((emuGB.hold_buttons ["a"]).1.hold_buttons ["b"]).1.held_keys).testBit 1 = true ∧
    (∃ c2, ((emuGB.hold_buttons ["a"]).1.hold_buttons ["b"]).1.core = some c2 ∧
      c2.keys = ((emuGB.hold_buttons ["a"]).1.hold_buttons ["b"]).1.held_keys)) :=
  ⟨rfl, C1_hold_buttons_additive emuGB coreW rfl⟩

/-- C2: On a loaded session, for a valid button name and any frame count,
press_button succeeds and leaves the session held-keys bitmask exactly as it
was; at the core it ors in only the affected bit (the bit is active while the
frames run and no other bit of the core key state is touched by the add),
advances exactly frames.toNat frames, then clears only that bit again: the
final core key state is the original one with just the affected bit removed,
and every other bit still reads as before the call. -/
theorem C2_press_button_preserves_held (env : CoreEnv) (e : Emulator) (c : Core)
    (button : String) (idx : Nat) (frames : Int)
    (h : e.core = some c)
    (hb : (buttonsFor e.is_gba).lookup (pyLower button) = some idx) :
    (e.press_button env button frames).2 = .ok () ∧
    (e.press_button env button frames).1.held_keys = e.held_keys ∧
    (∀ j, j ≠ idx →
      (coreAddKeys c (1 <<< idx)).keys.testBit j = c.keys.testBit j) ∧
    (runFrameLoop env frames.toNat (coreAddKeys c (1 <<< idx))).keys.testBit idx
      = true ∧
    (∃ c3, (e.press_button env button frames).1.core = some c3 ∧
      c3.internal = env.step^[frames.toNat] c.internal ∧
      c3.writes = c.writes ∧
      c3.keys = Nat.ldiff c.keys (1 <<< idx) ∧
      (∀ j, j ≠ idx → c3.keys.testBit j = c.keys.testBit j)) := by
  have hkey : e.button_to_key button = .ok (1 <<< idx) :=
    button_to_key_of_lookup e button idx hb
  have hrun : runFrameLoop env frames.toNat (coreAddKeys c (1 <<< idx)) =
      { coreAddKeys c (1 <<< idx) with
          internal := env.step^[frames.toNat] c.internal } :=
    runFrameLoop_eq env frames.toNat (coreAddKeys c (1 <<< idx))
  have hpress : e.press_button env button frames =
      ({ e with core := some (coreClearKeys
          (runFrameLoop env frames.toNat (coreAddKeys c (1 <<< idx)))
          (1 <<< idx)) }, .ok ()) := by
    simp [Emulator.press_button, h, hkey]
  refine ⟨by rw [hpress], by rw [hpress], ?_, ?_, ?_⟩
  · intro j hj
    exact testBit_lor_single c.keys idx j hj
  · rw [hrun]
    exact testBit_lor_single_self c.keys idx
  · refine ⟨_, by rw [hpress], ?_, ?_, ?_, ?_⟩
    · rw [hrun]
      rfl
    · rw [hrun]
      rfl
    · rw [hrun]
      show Nat.ldiff (c.keys ||| 1 <<< idx) (1 <<< idx) = Nat.ldiff c.keys (1 <<< idx)
      exact ldiff_lor_self c.keys (1 <<< idx)
    · intro j hj
      rw [hrun]
      show (Nat.ldiff (c.keys ||| 1 <<< idx) (1 <<< idx)).testBit j = c.keys.testBit j
      rw [ldiff_lor_self c.keys (1 <<< idx)]
      exact testBit_ldiff_single c.keys idx j hj

theorem C2_press_button_preserves_held_witness :
    (emuHeld.core = some coreHeld ∧
      (buttonsFor emuHeld.is_gba).lookup (pyLower "b") = some 1) ∧
    ((emuHeld.press_button envW "b" 2).2 = .ok () ∧
    (emuHeld.press_button envW "b" 2).1.held_keys = emuHeld.held_keys ∧
    (∀ j, j ≠ 1 →
      (coreAddKeys coreHeld (1 <<< 1)).keys.testBit j = coreHeld.keys.testBit j) ∧
    (runFrameLoop envW (2 : Int).toNat (coreAddKeys coreHeld (1 <<< 1))).keys.testBit 1
      = true ∧
    (∃ c3, (emuHeld.press_button envW "b" 2).1.core = some c3 ∧
      c3.internal = envW.step^[(2 : Int).toNat] coreHeld.internal ∧
      c3.writes = coreHeld.writes ∧
      c3.keys = Nat.ldiff coreHeld.keys (1 <<< 1) ∧
      (∀ j, j ≠ 1 → c3.keys.testBit j = coreHeld.keys.testBit j))) :=
  ⟨⟨rfl, by decide⟩,
    C2_press_button_preserves_held envW emuHeld coreHeld "b" 1 2 rfl (by decide)⟩

/-- C3 counterexample: the claim says close resets every session field to its
initial unloaded value, i.e. that close always returns the __init__ state.
On a populated GBA session this is false: close leaves the platform flag and
the cached video dimensions at their loaded values. -/
theorem C3_close_counterexample :
    emuSession.close ≠ Emulator.mkInit ∧
    (emuSession.close).is_gba = true ∧
    Emulator.mkInit.is_gba = false ∧
    (emuSession.close).video_width = 240 ∧
    Emulator.mkInit.video_width = 0 := by
  refine ⟨?_, rfl, rfl, rfl, rfl⟩
  decide

/-- C3 amended: close releases the core handle and clears exactly the fields
assigned in its body (core, video buffer, ROM path, savestate, held keys);
the cached video dimensions, the cached visible-window size and offsets, and
the platform flag keep their prior values instead of being reset. -/
theorem C3_close_clears_handle_fields (e : Emulator) :
    (e.close).core = none ∧
    (e.close).video_buffer = none ∧
    (e.close).rom_path = none ∧
    (e.close).savestate = none ∧
    (e.close).held_keys = 0 ∧
    (e.close).video_width = e.video_width ∧
    (e.close).video_height = e.video_height ∧
    (e.close).screen_width = e.screen_width ∧
    (e.close).screen_height = e.screen_height ∧
    (e.close).screen_offset_x = e.screen_offset_x ∧
    (e.close).screen_offset_y = e.screen_offset_y ∧
    (e.close).is_gba = e.is_gba :=
  ⟨rfl, rfl, rfl, rfl, rfl, rfl, rfl, rfl, rfl, rfl, rfl, rfl⟩

/-- C4: read_memory never raises on a loaded session: whatever the address,
the length and the behavior of the per-byte bus reads, it returns ok with
exactly length byte values, each at most 255, and any byte whose bus read
raised comes back as 0; with no session loaded the same call fails with the
no-session error. -/
theorem C4_read_memory_total (env : CoreEnv) (e : Emulator) (address : Int)
    (length : Nat) :
    (e.core = none →
      e.read_memory env address length = .error .noRomLoaded) ∧
    (∀ c, e.core = some c →
      e.read_memory env address length =
        .ok (readMemoryBytes env address length) ∧
      (readMemoryBytes env address length).length = length ∧
      (∀ v ∈ readMemoryBytes env address length, v ≤ 255) ∧
      (∀ i, i < length → env.busRead8 (address + (i : Int)) = none →
        (readMemoryBytes env address length)[i]? = some 0)) := by
  constructor
  · intro h
    simp [Emulator.read_memory, h]
  · intro c hc
    refine ⟨by simp [Emulator.read_memory, hc],
      readMemoryBytes_length env address length, ?_, ?_⟩
    · intro v hv
      rw [readMemoryBytes] at hv
      obtain ⟨i, _, rfl⟩ := List.mem_map.mp hv
      exact readByte_le env _
    · intro i hi hnone
      rw [readMemoryBytes_getElem? env address length i hi]
      simp [readByte, hnone]

theorem C4_read_memory_total_witness :
    (Emulator.mkInit.core = none ∧
      Emulator.read_memory envW Emulator.mkInit 100 3 = .error .noRomLoaded) ∧
    (emuGB.core = some coreW ∧
      (Emulator.read_memory envW emuGB 100 3 =
        .ok (readMemoryBytes envW 100 3) ∧
      (readMemoryBytes envW 100 3).length = 3 ∧
      (∀ v ∈ readMemoryBytes envW 100 3, v ≤ 255) ∧
      (∀ i : Nat, i < 3 → envW.busRead8 (100 + (i : Int)) = none →
        (readMemoryBytes envW 100 3)[i]? = some 0))) :=
  ⟨⟨rfl, (C4_read_memory_total envW Emulator.mkInit 100 3).1 rfl⟩,
    ⟨rfl, (C4_read_memory_total envW emuGB 100 3).2 coreW rfl⟩⟩

/-- C5: on a loaded session, write_memory writes bytes one at a time in
ascending address order; when every byte of the prefix pre succeeds at the
bus and the next byte fails, the call returns the error carrying the failing
address (address + pre.length), the core key and internal state are
untouched, and the write log has grown by exactly the prefix writes, one
entry per prefix byte at consecutive ascending addresses: the partial write
is not rolled back. -/
theorem C5_write_memory_partial (env : CoreEnv) (e : Emulator) (c : Core)
    (address : Int) (pre : List Int) (bad : Int) (rest : List Int)
    (h : e.core = some c)
    (hpre : ∀ j, j < pre.length →
      env.busWrite8ok (address + (j : Int)) (((pre.getD j 0) % 256).toNat) = true)
    (hbad : env.busWrite8ok (address + (pre.length : Int))
      ((bad % 256).toNat) = false) :
    (e.write_memory env address (pre ++ bad :: rest)).2 =
      .error (.writeFailed (address + (pre.length : Int))) ∧
    (∃ c2, (e.write_memory env address (pre ++ bad :: rest)).1.core = some c2 ∧
      c2.keys = c.keys ∧
      c2.internal = c.internal ∧
      c2.writes = c.writes ++ writesFor address 0 pre) := by
  have hloop : writeLoop env address 0 (pre ++ bad :: rest) c =
      writeLoop env address (0 + pre.length) (bad :: rest)
        { c with writes := c.writes ++ writesFor address 0 pre } :=
    writeLoop_ok_front env address (bad :: rest) pre 0 c
      (fun j hj => by simpa using hpre j hj)
  have hfail : writeLoop env address (0 + pre.length) (bad :: rest)
      { c with writes := c.writes ++ writesFor address 0 pre } =
      ({ c with writes := c.writes ++ writesFor address 0 pre },
        .error (.writeFailed (address + (pre.length : Int)))) := by
    have hbad2 : env.busWrite8ok (address + ((0 + pre.length : Nat) : Int))
        ((bad % 256).toNat) = false := by simpa using hbad
    simp only [writeLoop, hbad2, Bool.false_eq_true, if_false]
    simp
  have hw : e.write_memory env address (pre ++ bad :: rest) =
      ({ e with core := some { c with writes := c.writes ++ writesFor address 0 pre } },
        .error (.writeFailed (address + (pre.length : Int)))) := by
    simp only [Emulator.write_memory, h, hloop, hfail]
  rw [hw]
  exact ⟨rfl, _, rfl, rfl, rfl, rfl⟩

theorem C5_write_memory_partial_witness :
    (emuGB.core = some coreW ∧
      (∀ j, j < ([1, 510] : List Int).length →
        envW.busWrite8ok ((200 : Int) + (j : Int))
          (((([1, 510] : List Int).getD j 0) % 256).toNat) = true) ∧
      envW.busWrite8ok ((200 : Int) + (([1, 510] : List Int).length : Int))
        (((7 : Int) % 256).toNat) = false) ∧
    ((Emulator.write_memory envW emuGB 200 ([1, 510] ++ 7 :: [2])).2 =
      .error (.writeFailed ((200 : Int) + (([1, 510] : List Int).length : Int))) ∧
    (∃ c2, (Emulator.write_memory envW emuGB 200 ([1, 510] ++ 7 :: [2])).1.core
        = some c2 ∧
      c2.keys = coreW.keys ∧
      c2.internal = coreW.internal ∧
      c2.writes = coreW.writes ++ writesFor 200 0 [1, 510])) :=
  ⟨⟨rfl, by decide, by decide⟩,
    C5_write_memory_partial envW emuGB coreW 200 [1, 510] 7 [2] rfl
      (by decide) (by decide)⟩

/-- C6: on a loaded session, load_state with a buffer strictly smaller than
the core-reported expected state size fails with the validation error carrying
both sizes, before the core loadState is ever invoked: the returned session
record is exactly the input one, so no session state (core state, cached
savestate, held keys) is mutated by the failed call. -/
theorem C6_load_state_undersized (env : CoreEnv) (e : Emulator) (c : Core)
    (s : List Nat)
    (h : e.core = some c)
    (hs : s.length < env.stateSize) :
    e.load_state env (some s) =
      (e, .error (.stateTooSmall s.length env.stateSize)) := by
  simp [Emulator.load_state, h, hs]

theorem C6_load_state_undersized_witness :
    (emuGB.core = some coreW ∧ ([3, 4] : List Nat).length < envW.stateSize) ∧
    Emulator.load_state envW emuGB (some [3, 4]) =
      (emuGB, .error (.stateTooSmall ([3, 4] : List Nat).length envW.stateSize)) :=
  ⟨⟨rfl, by decide⟩,
    C6_load_state_undersized envW emuGB coreW [3, 4] rfl (by decide)⟩

/-- C10: on a loaded session, write_memory reduces every supplied value mod
256 before handing it to the bus: when the bus accepts each masked byte, the
call succeeds for arbitrary integer values (nothing is ever rejected with a
validation error), the log grows by one entry per value holding the value
mod 256, and every logged byte is below 256. -/
theorem C10_write_memory_masks (env : CoreEnv) (e : Emulator) (c : Core)
    (address : Int) (values : List Int)
    (h : e.core = some c)
    (hok : ∀ j, j < values.length →
      env.busWrite8ok (address + (j : Int))
        (((values.getD j 0) % 256).toNat) = true) :
    (e.write_memory env address values).2 = .ok () ∧
    (∃ c2, (e.write_memory env address values).1.core = some c2 ∧
      c2.writes = c.writes ++ writesFor address 0 values) ∧
    (∀ p ∈ writesFor address 0 values, p.2 < 256) := by
  have hsplit : values = values ++ [] := by simp
  have hloop : writeLoop env address 0 (values ++ []) c =
      writeLoop env address (0 + values.length) []
        { c with writes := c.writes ++ writesFor address 0 values } :=
    writeLoop_ok_front env address [] values 0 c
      (fun j hj => by simpa using hok j hj)
  have hw : e.write_memory env address values =
      ({ e with core := some { c with writes := c.writes ++ writesFor address 0 values } },
        .ok ()) := by
    conv_lhs => rw [hsplit]
    simp only [Emulator.write_memory, h, hloop, writeLoop]
  refine ⟨by rw [hw], ⟨_, by rw [hw], rfl⟩, ?_⟩
  intro p hp
  rw [writesFor] at hp
  obtain ⟨j, _, rfl⟩ := List.mem_map.mp hp
  show ((values.getD j 0) % 256).toNat < 256
  omega

theorem C10_write_memory_masks_witness :
    (emuGB.core = some coreW ∧
      (∀ j, j < ([511, -1, 300] : List Int).length →
        envW.busWrite8ok ((300 : Int) + (j : Int))
          (((([511, -1, 300] : List Int).getD j 0) % 256).toNat) = true)) ∧
    ((Emulator.write_memory envW emuGB 300 [511, -1, 300]).2 = .ok () ∧
    (∃ c2, (Emulator.write_memory envW emuGB 300 [511, -1, 300]).1.core = some c2 ∧
      c2.writes = coreW.writes ++ writesFor 300 0 [511, -1, 300]) ∧
    (∀ p ∈ writesFor 300 0 [511, -1, 300], p.2 < 256)) :=
  ⟨⟨rfl, by decide⟩,
    C10_write_memory_masks envW emuGB coreW 300 [511, -1, 300] rfl (by decide)⟩

theorem and_mask8 (x : Nat) : x &&& 0xFF = x % 2 ^ 8 := by
  have h : (0xFF : Nat) = 2 ^ 8 - 1 := by norm_num
  rw [h, and_two_pow_sub_one]

theorem and_mask9 (x : Nat) : x &&& 0x1FF = x % 2 ^ 9 := by
  have h : (0x1FF : Nat) = 2 ^ 9 - 1 := by norm_num
  rw [h, and_two_pow_sub_one]

theorem and_mask10 (x : Nat) : x &&& 0x3FF = x % 2 ^ 10 := by
  have h : (0x3FF : Nat) = 2 ^ 10 - 1 := by norm_num
  rw [h, and_two_pow_sub_one]

theorem and_mask4 (x : Nat) : x &&& 0xF = x % 2 ^ 4 := by
  have h : (0xF : Nat) = 2 ^ 4 - 1 := by norm_num
  rw [h, and_two_pow_sub_one]

theorem and_mask3 (x : Nat) : x &&& 0x7 = x % 2 ^ 3 := by
  have h : (0x7 : Nat) = 2 ^ 3 - 1 := by norm_num
  rw [h, and_two_pow_sub_one]

theorem and_mask1 (x : Nat) : x &&& 1 = x % 2 := by
  have h : (1 : Nat) = 2 ^ 1 - 1 := by norm_num
  conv_lhs => rw [h]
  rw [and_two_pow_sub_one, pow_one]

theorem readMemoryBytes_getD (env : CoreEnv) (a : Int) (length j : Nat)
    (hj : j < length) :
    (readMemoryBytes env a length).getD j 0 = readByte env (a + (j : Int)) := by
  rw [List.getD_eq_getElem?_getD, readMemoryBytes_getElem? env a length j hj]
  rfl

/-- C7: on a loaded session, dump_oam returns exactly 128 records on GBA and
exactly 40 on the GB family, the i-th record being the decode of the sprite
slot i; GBA attribute words decode as y from attr0 bits 0-7, x from attr1
bits 0-8, tile from attr2 bits 0-9 and palette from attr2 bits 12-15, while
GB records adjust y by -16 and x by -8 and split the flags byte into
priority (bit 7), y flip (bit 6), x flip (bit 5), DMG palette (bit 4), CGB
bank (bit 3) and CGB palette (bits 0-2). -/
theorem C7_dump_oam_decodes (env : CoreEnv) (e : Emulator) (c : Core)
    (h : e.core = some c) :
    (e.is_gba = true → ∃ l, e.dump_oam env = .ok l ∧ l.length = 128 ∧
      ∀ i, i < 128 → l[i]? = some (Sprite.gba (gbaSpriteAt env i))) ∧
    (e.is_gba = false → ∃ l, e.dump_oam env = .ok l ∧ l.length = 40 ∧
      ∀ i, i < 40 → l[i]? = some (Sprite.gb (gbSpriteAt env i))) ∧
    (∀ i : Nat,
      (gbaSpriteAt env i).index = i ∧
      (gbaSpriteAt env i).y =
        busRead16Masked env (0x07000000 + i * 8) % 2 ^ 8 ∧
      (gbaSpriteAt env i).x =
        busRead16Masked env (0x07000000 + i * 8 + 2) % 2 ^ 9 ∧
      (gbaSpriteAt env i).tile =
        busRead16Masked env (0x07000000 + i * 8 + 4) % 2 ^ 10 ∧
      (gbaSpriteAt env i).palette =
        busRead16Masked env (0x07000000 + i * 8 + 4) / 2 ^ 12 % 2 ^ 4) ∧
    (∀ i : Nat,
      (gbSpriteAt env i).index = i ∧
      (gbSpriteAt env i).y = (readByte env (0xFE00 + i * 4) : Int) - 16 ∧
      (gbSpriteAt env i).x = (readByte env (0xFE00 + i * 4 + 1) : Int) - 8 ∧
      (gbSpriteAt env i).tile = readByte env (0xFE00 + i * 4 + 2) ∧
      (gbSpriteAt env i).flags = readByte env (0xFE00 + i * 4 + 3) ∧
      (gbSpriteAt env i).priority =
        readByte env (0xFE00 + i * 4 + 3) / 2 ^ 7 % 2 ∧
      (gbSpriteAt env i).y_flip =
        readByte env (0xFE00 + i * 4 + 3) / 2 ^ 6 % 2 ∧
      (gbSpriteAt env i).x_flip =
        readByte env (0xFE00 + i * 4 + 3) / 2 ^ 5 % 2 ∧
      (gbSpriteAt env i).palette =
        readByte env (0xFE00 + i * 4 + 3) / 2 ^ 4 % 2 ∧
      (gbSpriteAt env i).bank =
        readByte env (0xFE00 + i * 4 + 3) / 2 ^ 3 % 2 ∧
      (gbSpriteAt env i).cgb_palette =
        readByte env (0xFE00 + i * 4 + 3) % 2 ^ 3) := by
  have hmem : ∀ (a : Int) (j : Nat), j < 4 →
      (readMemoryBytes env a 4).getD j 0 = readByte env (a + (j : Int)) :=
    fun a j hj => readMemoryBytes_getD env a 4 j hj
  refine ⟨?_, ?_, ?_, ?_⟩
  · intro hg
    refine ⟨(List.range 128).map (fun i => Sprite.gba (gbaSpriteAt env i)),
      by simp [Emulator.dump_oam, h, hg], by simp, ?_⟩
    intro i hi
    rw [List.getElem?_map, List.getElem?_range hi]
    rfl
  · intro hg
    refine ⟨(List.range 40).map (fun i => Sprite.gb (gbSpriteAt env i)),
      by simp [Emulator.dump_oam, h, hg], by simp, ?_⟩
    intro i hi
    rw [List.getElem?_map, List.getElem?_range hi]
    rfl
  · intro i
    refine ⟨rfl, ?_, ?_, ?_, ?_⟩
    · show busRead16Masked env (0x07000000 + i * 8) &&& 0xFF = _
      rw [and_mask8]
    · show busRead16Masked env (0x07000000 + i * 8 + 2) &&& 0x1FF = _
      rw [and_mask9]
    · show busRead16Masked env (0x07000000 + i * 8 + 4) &&& 0x3FF = _
      rw [and_mask10]
    · show busRead16Masked env (0x07000000 + i * 8 + 4) >>> 12 &&& 0xF = _
      rw [and_mask4, Nat.shiftRight_eq_div_pow]
  · intro i
    have h0 : (readMemoryBytes env (0xFE00 + i * 4) 4).getD 0 0 =
        readByte env (0xFE00 + i * 4) := by
      rw [hmem _ 0 (by norm_num)]
      norm_num
    have h1 : (readMemoryBytes env (0xFE00 + i * 4) 4).getD 1 0 =
        readByte env (0xFE00 + i * 4 + 1) := by
      rw [hmem _ 1 (by norm_num)]
      norm_num
    have h2 : (readMemoryBytes env (0xFE00 + i * 4) 4).getD 2 0 =
        readByte env (0xFE00 + i * 4 + 2) := by
      rw [hmem _ 2 (by norm_num)]
      norm_num
    have h3 : (readMemoryBytes env (0xFE00 + i * 4) 4).getD 3 0 =
        readByte env (0xFE00 + i * 4 + 3) := by
      rw [hmem _ 3 (by norm_num)]
      norm_num
    refine ⟨rfl, ?_, ?_, ?_, ?_, ?_, ?_, ?_, ?_, ?_, ?_⟩
    · show ((readMemoryBytes env (0xFE00 + i * 4) 4).getD 0 0 : Int) - 16 = _
      rw [h0]
    · show ((readMemoryBytes env (0xFE00 + i * 4) 4).getD 1 0 : Int) - 8 = _
      rw [h1]
    · exact h2
    · exact h3
    · show (readMemoryBytes env (0xFE00 + i * 4) 4).getD 3 0 >>> 7 &&& 1 = _
      rw [and_mask1, Nat.shiftRight_eq_div_pow, h3]
    · show (readMemoryBytes env (0xFE00 + i * 4) 4).getD 3 0 >>> 6 &&& 1 = _
      rw [and_mask1, Nat.shiftRight_eq_div_pow, h3]
    · show (readMemoryBytes env (0xFE00 + i * 4) 4).getD 3 0 >>> 5 &&& 1 = _
      rw [and_mask1, Nat.shiftRight_eq_div_pow, h3]
    · show (readMemoryBytes env (0xFE00 + i * 4) 4).getD 3 0 >>> 4 &&& 1 = _
      rw [and_mask1, Nat.shiftRight_eq_div_pow, h3]
    · show (readMemoryBytes env (0xFE00 + i * 4) 4).getD 3 0 >>> 3 &&& 1 = _
      rw [and_mask1, Nat.shiftRight_eq_div_pow, h3]
    · show (readMemoryBytes env (0xFE00 + i * 4) 4).getD 3 0 &&& 0x7 = _
      rw [and_mask3, h3]

theorem C7_dump_oam_decodes_witness :
    (emuGBA.core = some coreW ∧ emuGBA.is_gba = true ∧
     emuGB.core = some coreW ∧ emuGB.is_gba = false) ∧
    (∃ l, emuGBA.dump_oam envW = .ok l ∧ l.length = 128 ∧
      ∀ i, i < 128 → l[i]? = some (Sprite.gba (gbaSpriteAt envW i))) ∧
    (∃ l, emuGB.dump_oam envW = .ok l ∧ l.length = 40 ∧
      ∀ i, i < 40 → l[i]? = some (Sprite.gb (gbSpriteAt envW i))) :=
  ⟨⟨rfl, rfl, rfl, rfl⟩,
    (C7_dump_oam_decodes envW emuGBA coreW rfl).1 rfl,
    (C7_dump_oam_decodes envW emuGB coreW rfl).2.1 rfl⟩

theorem emulator_eta_core (e : Emulator) (c : Core) (h : e.core = some c) :
    ({ e with core := some c } : Emulator) = e := by
  cases e
  simp only at h
  subst h
  rfl

/-- C8: on a loaded session, run_frames with a nonnegative count n applies the
core runFrame step exactly n times and returns ok with the frame counter read
from the resulting core state; with count below or equal to zero the Python
range is empty, so the call is a no-op that runs zero frames, leaves the
session (and hence the frame counter) unchanged, and still returns ok with
the current frame counter rather than an error. -/
theorem C8_run_frames_exact (env : CoreEnv) (e : Emulator) (c : Core)
    (count : Int) (h : e.core = some c) :
    (∀ n : Nat, count = (n : Int) →
      e.run_frames env count =
        ({ e with core := some { c with internal := env.step^[n] c.internal } },
          .ok (env.frameCounter (env.step^[n] c.internal)))) ∧
    (count ≤ 0 →
      e.run_frames env count = (e, .ok (env.frameCounter c.internal))) := by
  constructor
  · intro n hn
    subst hn
    simp [Emulator.run_frames, h, runFrameLoop_eq, Int.toNat_natCast]
  · intro hc
    have h0 : count.toNat = 0 := Int.toNat_of_nonpos hc
    simp only [Emulator.run_frames, h, h0, runFrameLoop]
    rw [emulator_eta_core e c h]

theorem C8_run_frames_exact_witness :
    (emuGB.core = some coreW ∧ (3 : Int) = ((3 : Nat) : Int) ∧ (-2 : Int) ≤ 0) ∧
    (Emulator.run_frames envW emuGB 3 =
      ({ emuGB with
          core := some { coreW with internal := envW.step^[3] coreW.internal } },
        .ok (envW.frameCounter (envW.step^[3] coreW.internal)))) ∧
    (Emulator.run_frames envW emuGB (-2) =
      (emuGB, .ok (envW.frameCounter coreW.internal))) :=
  ⟨⟨rfl, rfl, by decide⟩,
    (C8_run_frames_exact envW emuGB coreW 3 rfl).1 3 rfl,
    (C8_run_frames_exact envW emuGB coreW (-2) rfl).2 (by decide)⟩

/-- C9: on a loaded session, release_buttons with an explicit list removes
bits from the held bitmask one name at a time and calls setKeys only after
the whole list is processed; hence when the list is a valid prefix followed
by an invalid name, the call raises the invalid-button error with the prefix
bits already cleared from the facade held bitmask while the core key state
is untouched, and if the prefix actually held some bit (witnessed by bit j
set in both the old held mask and the prefix mask) the facade held bitmask
and the core key state are left divergent. -/
theorem C9_release_buttons_invalid_divergence (e : Emulator) (c : Core)
    (pre : List String) (bad : String) (rest : List String)
    (keysPre : Nat) (j : Nat)
    (h : e.core = some c)
    (hsync : c.keys = e.held_keys)
    (hpre : collectKeys e 0 pre = .ok keysPre)
    (hbad : (buttonsFor e.is_gba).lookup (pyLower bad) = none)
    (hj1 : e.held_keys.testBit j = true)
    (hj2 : keysPre.testBit j = true) :
    (e.release_buttons (some (pre ++ bad :: rest))).2 =
      .error (.invalidButton bad) ∧
    (e.release_buttons (some (pre ++ bad :: rest))).1.core = some c ∧
    (e.release_buttons (some (pre ++ bad :: rest))).1.held_keys =
      Nat.ldiff e.held_keys keysPre ∧
    (e.release_buttons (some (pre ++ bad :: rest))).1.held_keys ≠ c.keys := by
  have hbadkey : e.button_to_key bad = .error (.invalidButton bad) :=
    button_to_key_of_lookup_none e bad hbad
  have hloop : releaseLoop e e.held_keys (pre ++ bad :: rest) =
      (Nat.ldiff e.held_keys keysPre, .error (.invalidButton bad)) := by
    rw [releaseLoop_valid_front e (bad :: rest) pre e.held_keys keysPre hpre]
    simp [releaseLoop, hbadkey]
  have hrel : e.release_buttons (some (pre ++ bad :: rest)) =
      ({ e with held_keys := Nat.ldiff e.held_keys keysPre },
        .error (.invalidButton bad)) := by
    simp only [Emulator.release_buttons, h, hloop]
  refine ⟨by rw [hrel], by rw [hrel]; exact h, by rw [hrel], ?_⟩
  rw [hrel]
  intro heq
  dsimp only at heq
  have h1 : (Nat.ldiff e.held_keys keysPre).testBit j = false := by
    simp [Nat.testBit_ldiff, hj2]
  rw [heq, hsync, hj1] at h1
  cases h1

theorem C9_release_buttons_invalid_divergence_witness :
    (emuHeld.core = some coreHeld ∧
      coreHeld.keys = emuHeld.held_keys ∧
      collectKeys emuHeld 0 ["a"] = .ok 1 ∧
      (buttonsFor emuHeld.is_gba).lookup (pyLower "l") = none ∧
      emuHeld.held_keys.testBit 0 = true ∧
      (1 : Nat).testBit 0 = true) ∧
    ((emuHeld.release_buttons (some (["a"] ++ "l" :: ["b"]))).2 =
      .error (.invalidButton "l") ∧
    (emuHeld.release_buttons (some (["a"] ++ "l" :: ["b"]))).1.core =
      some coreHeld ∧
    (emuHeld.release_buttons (some (["a"] ++ "l" :: ["b"]))).1.held_keys =
      Nat.ldiff emuHeld.held_keys 1 ∧
    (emuHeld.release_buttons (some (["a"] ++ "l" :: ["b"]))).1.held_keys ≠
      coreHeld.keys) :=
  ⟨⟨rfl, rfl, rfl, by decide, by decide, by decide⟩,
    C9_release_buttons_invalid_divergence emuHeld coreHeld ["a"] "l" ["b"] 1 0
      rfl rfl rfl (by decide) (by decide) (by decide)⟩
